import Mathlib

/-!
Verification of the dnsToy caching DNS proxy.

The repository contains several variants of the same program:
* `internal/proxy/proxy3.go` — handler that resolves upstream first, then
  runs `existsInDatabaseIncrementCount` and answers from the database;
* `cmd/dnsToy/main.go` (and the unnamed `part_000`) — handler that checks the
  database first and calls `DnsLookup` (PTR-probe then A exchange) on a miss;
* the unnamed `part_001` — minimal variant storing the sentinel `0.0.0.0`
  for every unseen domain;
* the shared `dbfunc` package (`part_002`) with `getFromDatabase`,
  `addToDatabase`, `existsInDatabaseIncrementCount`, `dumpDatabase`.

The embedding models the SQLite `resolutions` table as a list of rows in
storage order, the network resolvers as oracles, and instruments each code
path with the list of externally visible events (database selects, inserts,
updates, and upstream resolutions) it performs.
-/

namespace DnsToy

/-- Record type number for A records (miekg/dns `dns.TypeA`). -/
def TypeA : Nat := 1

/-- Record type number for PTR records (miekg/dns `dns.TypePTR`). -/
def TypePTR : Nat := 12

/-- Lower-casing of one ASCII character, as Go's `strings.ToLower` acts on
the ASCII domain names this program handles. -/
def lowerChar (c : Char) : Char :=
  if 'A' ≤ c ∧ c ≤ 'Z' then Char.ofNat (c.toNat + 32) else c

/-- Go's `strings.ToLower` restricted to ASCII strings (domain names). -/
def toLower (s : String) : String :=
  ⟨s.data.map lowerChar⟩

/-- Value of a decimal octet of a dotted-quad IPv4 literal: all digits,
one to three characters, no leading zero (Go ≥ 1.17), value at most 255. -/
def octetVal (g : List Char) : Option Nat :=
  if g ≠ [] ∧ g.all Char.isDigit ∧ g.length ≤ 3 ∧ (g.length = 1 ∨ g.head? ≠ some '0') then
    let v := g.foldl (fun a c => a * 10 + (c.toNat - 48)) 0
    if v ≤ 255 then some v else none
  else none

/-- Splitting a character list at every dot (each dot separates groups, so
`"a..b"` gives three groups, the middle one empty). -/
def splitDots : List Char → List (List Char)
  | [] => [[]]
  | c :: rest =>
    if c = '.' then [] :: splitDots rest
    else match splitDots rest with
      | [] => [[c]]
      | g :: gs => (c :: g) :: gs

/-- Go's `net.ParseIP` on the dotted-quad IPv4 form: four valid octets.
IPv6 literals are not modelled (no claim exercises them); every string that
is not a well-formed dotted quad is rejected, as `net.ParseIP` rejects
malformed input by returning nil. -/
def parseIP (s : String) : Option (List Nat) :=
  match splitDots s.data with
  | [a, b, c, d] =>
    match octetVal a, octetVal b, octetVal c, octetVal d with
    | some x, some y, some z, some w => some [x, y, z, w]
    | _, _, _, _ => none
  | _ => none

/-- One question of an incoming DNS message (`dns.Question`): name and type. -/
structure Question where
  name : String
  qtype : Nat
deriving DecidableEq

/-- One A answer record as the handlers construct it: owner name, address
text, and the fixed TTL. -/
structure Answer where
  name : String
  ip : String
  ttl : Nat
deriving DecidableEq

/-- One row of the `resolutions` table. -/
structure Entry where
  domain : String
  ip : String
  query_count : Nat
deriving DecidableEq

/-- The SQLite database: rows in storage order, plus the set of domains on
which a `SELECT` fails with a storage-engine error other than
`sql.ErrNoRows` (fault injection for the error-handling claims). -/
structure DB where
  rows : List Entry
  faults : List String
deriving DecidableEq

/-- Exact-match row lookup by domain key (`SELECT ... WHERE domain=?`). -/
def findRow (rows : List Entry) (d : String) : Option Entry :=
  rows.find? (fun e => e.domain == d)

/-- Result of one `QueryRow ... Scan`: a storage-engine error, or the row if
present (`sql.ErrNoRows` is represented by `Except.ok none`). -/
def queryRow (db : DB) (d : String) : Except Unit (Option Entry) :=
  if d ∈ db.faults then .error () else .ok (findRow db.rows d)

/-- Externally visible events of a handler run: upstream resolution calls
and database reads and writes. -/
inductive Ev where
  | resolve (name : String)
  | dbSelect (domain : String)
  | dbInsert (domain ip : String)
  | dbUpdate (domain : String)
deriving DecidableEq

/-- Go `getFromDatabase`: returns `(ip, true)` when the row exists, and
`("", false)` both when the row is absent and when the storage engine
errors (the error is only logged, not returned). -/
def getFromDatabase (db : DB) (domain : String) : String × Bool :=
  match queryRow db domain with
  | .error _ => ("", false)
  | .ok none => ("", false)
  | .ok (some e) => (e.ip, true)

/-- Go `addToDatabase`: `INSERT INTO resolutions(domain, ip)`; `query_count`
defaults to 0, and the insert fails (second component `true`) when the
primary key already exists. -/
def addToDatabase (db : DB) (domain ip : String) : DB × Bool :=
  match findRow db.rows domain with
  | some _ => (db, true)
  | none => ({ db with rows := db.rows ++ [⟨domain, ip, 0⟩] }, false)

/-- Increment of `query_count` for one domain
(`UPDATE resolutions SET query_count=query_count+1 WHERE domain=?`). -/
def incrRow (rows : List Entry) (d : String) : List Entry :=
  rows.map (fun e => if e.domain == d then { e with query_count := e.query_count + 1 } else e)

/-- Outcome of `existsInDatabaseIncrementCount`: the `(existed, error)` pair. -/
inductive IncrResult where
  | ok (existed : Bool)
  | err
deriving DecidableEq

/-- Go `existsInDatabaseIncrementCount`: `SELECT query_count`; on
`sql.ErrNoRows` insert the row with the supplied address and
`query_count` 0 and return `existed=false`; on another select error return
the error; otherwise increment the count and return `existed=true`. -/
def existsInDatabaseIncrementCount (db : DB) (domain ip : String) :
    DB × IncrResult × List Ev :=
  match queryRow db domain with
  | .error _ => (db, .err, [.dbSelect domain])
  | .ok none =>
    ({ db with rows := db.rows ++ [⟨domain, ip, 0⟩] }, .ok false,
      [.dbSelect domain, .dbInsert domain ip])
  | .ok (some _) =>
    ({ db with rows := incrRow db.rows domain }, .ok true,
      [.dbSelect domain, .dbUpdate domain])

/-- One question of the proxy3 handler. The upstream resolver
(`net.LookupIP`) is an oracle giving the textual form of the first returned
address, or `none` on a resolution error. With lookups enabled the handler
resolves first, runs `existsInDatabaseIncrementCount` on the lower-cased
name, replies with an empty answer for a freshly inserted domain, and
otherwise serves the stored address via `getFromDatabase`/`net.ParseIP`
(falling back to `resolveAndStore` when the row cannot be read back). With
lookups disabled it serves only the database, with no record-type check. -/
def step3 (enabled : Bool) (resolver : String → Option String) (db : DB) (q : Question) :
    DB × List Answer × List Ev :=
  if enabled then
    if q.qtype ≠ TypeA then (db, [], [])
    else
      match resolver q.name with
      | none => (db, [], [.resolve q.name])
      | some rip =>
        let lower := toLower q.name
        match existsInDatabaseIncrementCount db lower rip with
        | (db1, .err, evs) => (db1, [], .resolve q.name :: evs)
        | (db1, .ok false, evs) => (db1, [], .resolve q.name :: evs)
        | (db1, .ok true, evs) =>
          match getFromDatabase db1 lower with
          | (ip, true) =>
            match parseIP ip with
            | some _ =>
              (db1, [⟨q.name, ip, 60⟩], .resolve q.name :: evs ++ [.dbSelect lower])
            | none => (db1, [], .resolve q.name :: evs ++ [.dbSelect lower])
          | (_, false) =>
            match resolver lower with
            | none =>
              (db1, [], .resolve q.name :: evs ++ [.dbSelect lower, .resolve lower])
            | some rip2 =>
              match addToDatabase db1 lower rip2 with
              | (db2, true) =>
                (db2, [],
                  .resolve q.name :: evs ++ [.dbSelect lower, .resolve lower, .dbInsert lower rip2])
              | (db2, false) =>
                (db2, [⟨q.name, rip2, 60⟩],
                  .resolve q.name :: evs ++ [.dbSelect lower, .resolve lower, .dbInsert lower rip2])
  else
    match getFromDatabase db (toLower q.name) with
    | (ip, true) =>
      match parseIP ip with
      | some _ => (db, [⟨q.name, ip, 60⟩], [.dbSelect (toLower q.name)])
      | none => (db, [], [.dbSelect (toLower q.name)])
    | (_, false) => (db, [], [.dbSelect (toLower q.name)])

/-- The proxy3 handler over the question list of one request: the reply's
answer section is the concatenation of the per-question answers. -/
def handle3 (enabled : Bool) (resolver : String → Option String) (db : DB) :
    List Question → DB × List Answer × List Ev
  | [] => (db, [], [])
  | q :: qs =>
    let r1 := step3 enabled resolver db q
    let r2 := handle3 enabled resolver r1.1 qs
    (r2.1, r1.2.1 ++ r2.2.1, r1.2.2 ++ r2.2.2)

/-- One question of the `cmd/dnsToy/main.go` handler (the `part_000` handler
has the same shape on the paths modelled here). With lookups enabled it
checks the database under the lower-cased name first, serving a hit through
`net.ParseIP`; on a miss it calls `DnsLookup` (abstracted as a resolver
oracle returning the textual address on success) and, on success, inserts
with `dbfunc.AddToDatabase(database, question.Name, IP)` — the raw,
non-lower-cased question name. The answer records that `DnsLookup` builds
are appended to the request message, not to the reply, so the miss path
contributes no answer to the reply; an insert error is only logged. With
lookups disabled, non-A questions are skipped and hits are served from the
database. -/
def stepMain (enabled : Bool) (resolver : String → Option String) (db : DB) (q : Question) :
    DB × List Answer × List Ev :=
  if enabled then
    if q.qtype ≠ TypeA then (db, [], [])
    else
      match getFromDatabase db (toLower q.name) with
      | (ip, true) =>
        match parseIP ip with
        | some _ => (db, [⟨q.name, ip, 60⟩], [.dbSelect (toLower q.name)])
        | none => (db, [], [.dbSelect (toLower q.name)])
      | (_, false) =>
        match resolver q.name with
        | none => (db, [], [.dbSelect (toLower q.name), .resolve q.name])
        | some ip =>
          ((addToDatabase db q.name ip).1, [],
            [.dbSelect (toLower q.name), .resolve q.name, .dbInsert q.name ip])
  else
    if q.qtype ≠ TypeA then (db, [], [])
    else
      match getFromDatabase db (toLower q.name) with
      | (ip, true) =>
        match parseIP ip with
        | some _ => (db, [⟨q.name, ip, 60⟩], [.dbSelect (toLower q.name)])
        | none => (db, [], [.dbSelect (toLower q.name)])
      | (_, false) => (db, [], [.dbSelect (toLower q.name)])

/-- Database of the minimal `part_001` variant: its `resolutions` table has
no `query_count` column, so a row is a domain-address pair. -/
structure MiniDB where
  rows : List (String × String)
  faults : List String
deriving DecidableEq

/-- Row lookup of the minimal variant. -/
def findMini (rows : List (String × String)) (d : String) : Option String :=
  (rows.find? (fun e => e.1 == d)).map (·.2)

/-- The `getFromDatabase` of the minimal variant: absent rows and
storage-engine errors both come back as `("", false)`. -/
def getFromDatabaseMini (db : MiniDB) (domain : String) : String × Bool :=
  if domain ∈ db.faults then ("", false)
  else
    match findMini db.rows domain with
    | none => ("", false)
    | some ip => (ip, true)

/-- The `addToDatabase` of the minimal variant: plain `INSERT`, failing when
the primary key exists. -/
def addToDatabaseMini (db : MiniDB) (domain ip : String) : MiniDB × Bool :=
  match findMini db.rows domain with
  | some _ => (db, true)
  | none => ({ db with rows := db.rows ++ [(domain, ip)] }, false)

/-- One question of the `part_001` handler: no record-type check at all; a
hit is served through `net.ParseIP` as an A record whatever the question
type; a miss inserts the sentinel address `0.0.0.0` under the lower-cased
name and produces no answer. -/
def stepMini (db : MiniDB) (q : Question) : MiniDB × List Answer × List Ev :=
  match getFromDatabaseMini db (toLower q.name) with
  | (ip, true) =>
    match parseIP ip with
    | some _ => (db, [⟨q.name, ip, 60⟩], [.dbSelect (toLower q.name)])
    | none => (db, [], [.dbSelect (toLower q.name)])
  | (_, false) =>
    ((addToDatabaseMini db (toLower q.name) "0.0.0.0").1, [],
      [.dbSelect (toLower q.name), .dbInsert (toLower q.name) "0.0.0.0"])

/-- One upstream exchange request (`dns.Msg` question) sent by `DnsLookup`. -/
structure DnsQuery where
  qname : String
  qtype : Nat
deriving DecidableEq

/-- One resource record of an upstream response: an A record carrying an
address, or a record of any other type. -/
inductive RRec where
  | A (ip : String)
  | other
deriving DecidableEq

/-- Outcome of `DnsLookup`: `fatal` models `log.Fatalf`, which terminates
the whole process; `err` an error returned to the caller; `ok` success with
the first address. -/
inductive LookupOutcome where
  | fatal
  | err (msg : String)
  | ok (ip : String)
deriving DecidableEq

/-- The fixed PTR probe `DnsLookup` always sends first
(`8.8.8.8.in-addr.arpa.` of type PTR). -/
def ptrProbe : DnsQuery := ⟨"8.8.8.8.in-addr.arpa.", TypePTR⟩

/-- Address of the first A record of a response's answer section. -/
def firstARecord : List RRec → Option String
  | [] => none
  | .A ip :: _ => some ip
  | .other :: rest => firstARecord rest

/-- Go `DnsLookup` of `cmd/dnsToy/main.go` (the inlined copy in `part_000`
is the same on these paths). The upstream oracle maps an exchanged query to
its response's answer section, `none` meaning the exchange returned an
error. The function first sends the fixed PTR probe; an exchange error
there is `log.Fatalf` (process exit). It then uses the original `domain` as
target name: when non-empty it sends the A query (exchange error again
`log.Fatalf`) and takes the first A record's address; the loop over the PTR
response only appends records to the caller's message and never sets the
returned address. An empty address yields the custom error. The returned
trace lists the exchanges performed in order. -/
def DnsLookup (upstream : DnsQuery → Option (List RRec)) (domain : String) :
    List DnsQuery × LookupOutcome :=
  match upstream ptrProbe with
  | none => ([ptrProbe], .fatal)
  | some _respPtr =>
    let targetName := domain
    if targetName ≠ "" then
      let mA : DnsQuery := ⟨targetName, TypeA⟩
      match upstream mA with
      | none => ([ptrProbe, mA], .fatal)
      | some respA =>
        let ipAddress := (firstARecord respA).getD ""
        if ipAddress = "" then
          ([ptrProbe, mA], .err "Custom Error: No IP address returned for the domain")
        else ([ptrProbe, mA], .ok ipAddress)
    else
      ([ptrProbe], .err "Custom Error: No IP address returned for the domain")

/-- Program counter of one concurrent caller of
`existsInDatabaseIncrementCount`: before its `SELECT`, between the `SELECT`
and the write, or finished with a result. -/
inductive CallerPC where
  | start
  | afterSelect (found : Bool)
  | done (res : IncrResult)
deriving DecidableEq

/-- Shared state of two concurrent callers of
`existsInDatabaseIncrementCount` for the same domain: the table rows and
each caller's program counter. -/
structure ConcState where
  rows : List Entry
  pc1 : CallerPC
  pc2 : CallerPC
deriving DecidableEq

/-- One atomic micro-step of a caller of `existsInDatabaseIncrementCount`:
the `SELECT` observes presence; the subsequent `INSERT` fails with a
`UNIQUE` constraint error when the primary key has appeared meanwhile; the
`UPDATE` increments the count. Each SQL statement is atomic, but the
`SELECT`-then-write sequence is not. -/
def callerStep (domain ip : String) (rows : List Entry) (pc : CallerPC) :
    List Entry × CallerPC :=
  match pc with
  | .start => (rows, .afterSelect (findRow rows domain).isSome)
  | .afterSelect false =>
    match findRow rows domain with
    | some _ => (rows, .done .err)
    | none => (rows ++ [⟨domain, ip, 0⟩], .done (.ok false))
  | .afterSelect true => (incrRow rows domain, .done (.ok true))
  | .done r => (rows, .done r)

/-- Interleaved execution of the two callers under a schedule: `true` gives
the next micro-step to caller 1, `false` to caller 2. -/
def runConc (domain ip1 ip2 : String) : List Bool → ConcState → ConcState
  | [], s => s
  | b :: rest, s =>
    if b then
      let r := callerStep domain ip1 s.rows s.pc1
      runConc domain ip1 ip2 rest ⟨r.1, r.2, s.pc2⟩
    else
      let r := callerStep domain ip2 s.rows s.pc2
      runConc domain ip1 ip2 rest ⟨r.1, s.pc1, r.2⟩

/-- Resolver oracle of the end-to-end scenarios: `example.com.` resolves to
`93.184.216.34`, everything else fails. -/
def exResolver : String → Option String :=
  fun d => if d = "example.com." then some "93.184.216.34" else none

/-- Resolver oracle for the case-normalization scenario: the mixed-case
name `Example.COM.` resolves to `1.2.3.4`. -/
def exResolver4 : String → Option String :=
  fun d => if d = "Example.COM." then some "1.2.3.4" else none

/-- Number of rows stored under a given domain key. -/
def countDomain (rows : List Entry) (d : String) : Nat :=
  (rows.filter (fun e => e.domain == d)).length

lemma findRow_cons (e : Entry) (rows : List Entry) (d : String) :
    findRow (e :: rows) d = if e.domain == d then some e else findRow rows d := by
  by_cases h : (e.domain == d) = true
  · rw [if_pos h]; exact List.find?_cons_of_pos _ h
  · rw [if_neg h]; exact List.find?_cons_of_neg _ (by simpa using h)

lemma incrRow_cons (e : Entry) (rows : List Entry) (d : String) :
    incrRow (e :: rows) d =
      (if e.domain == d then { e with query_count := e.query_count + 1 } else e) :: incrRow rows d := rfl

lemma findRow_incrRow (rows : List Entry) (d : String) :
    findRow (incrRow rows d) d =
      (findRow rows d).map (fun e => { e with query_count := e.query_count + 1 }) := by
  induction rows with
  | nil => rfl
  | cons e rows ih =>
    rw [incrRow_cons]
    by_cases h : (e.domain == d) = true
    · have hx : (({ e with query_count := e.query_count + 1 } : Entry).domain == d) = true := h
      rw [if_pos h, findRow_cons, if_pos hx, findRow_cons, if_pos h]
      rfl
    · rw [if_neg h, findRow_cons, if_neg h, findRow_cons, if_neg h, ih]

lemma countDomain_append (rows1 rows2 : List Entry) (d : String) :
    countDomain (rows1 ++ rows2) d = countDomain rows1 d + countDomain rows2 d := by
  simp [countDomain, List.filter_append]

lemma countDomain_incrRow (rows : List Entry) (d' d : String) :
    countDomain (incrRow rows d') d = countDomain rows d := by
  induction rows with
  | nil => rfl
  | cons e rows ih =>
    by_cases h : (e.domain == d') = true
    · have hdom : ({ e with query_count := e.query_count + 1 } : Entry).domain = e.domain := rfl
      by_cases h2 : (e.domain == d) = true
      · simp [incrRow, countDomain, h, h2, List.filter] at ih ⊢; omega
      · simp [incrRow, countDomain, h, h2, List.filter] at ih ⊢; omega
    · by_cases h2 : (e.domain == d) = true
      · simp [incrRow, countDomain, h, h2, List.filter] at ih ⊢; omega
      · simp [incrRow, countDomain, h, h2, List.filter] at ih ⊢; omega

lemma findRow_none_iff_count (rows : List Entry) (d : String) :
    findRow rows d = none ↔ countDomain rows d = 0 := by
  induction rows with
  | nil => simp [findRow, countDomain]
  | cons e rows ih =>
    by_cases h : (e.domain == d) = true
    · simp [findRow, countDomain, List.find?_cons_of_pos, h, List.filter]
    · rw [findRow, List.find?_cons_of_neg _ (by simpa using h)]
      simp only [countDomain, List.filter, h]
      exact ih

lemma findMini_append_self (rows : List (String × String)) (d v : String)
    (h : findMini rows d = none) :
    findMini (rows ++ [(d, v)]) d = some v := by
  simp only [findMini, Option.map_eq_none'] at h
  simp [findMini, List.find?_append, h]

/-- C1, counterexample. First-ever A-record query of the resolvable domain
`example.com.` on an empty cache with lookups enabled (end-to-end
scenario 1): the proxy3 handler persists the mapping with `query_count` 0,
but the reply's answer section is empty — not the one answer record the
claim requires. -/
theorem C1_counterexample :
    (handle3 true exResolver ⟨[], []⟩ [⟨"example.com.", TypeA⟩]).2.1 = [] ∧
    (handle3 true exResolver ⟨[], []⟩ [⟨"example.com.", TypeA⟩]).1.rows =
      [⟨"example.com.", "93.184.216.34", 0⟩] := by decide

/-- C1, amended. On a first-ever A-record query of a resolvable domain with
lookups enabled and a healthy store, the proxy3 handler persists the
mapping (lower-cased domain, resolved address, `query_count` 0) into the
cache, but appends no answer record: the reply for the first query of that
domain is empty, and the cached answer is only served from the second query
onward. -/
theorem C1_amended (resolver : String → Option String) (db : DB) (d ip : String)
    (hf : toLower d ∉ db.faults) (hr : resolver d = some ip)
    (habs : findRow db.rows (toLower d) = none) :
    step3 true resolver db ⟨d, TypeA⟩ =
      ({ db with rows := db.rows ++ [⟨toLower d, ip, 0⟩] }, [],
        [.resolve d, .dbSelect (toLower d), .dbInsert (toLower d) ip]) := by
  simp [step3, existsInDatabaseIncrementCount, queryRow, hf, hr, habs, TypeA]

/-- C1, witness for the amended theorem at scenario 1's concrete input. -/
theorem C1_amended_witness :
    step3 true exResolver ⟨[], []⟩ ⟨"example.com.", TypeA⟩ =
      ({ (⟨[], []⟩ : DB) with rows := [] ++ [⟨toLower "example.com.", "93.184.216.34", 0⟩] }, [],
        [.resolve "example.com.", .dbSelect (toLower "example.com."),
          .dbInsert (toLower "example.com.") "93.184.216.34"]) :=
  C1_amended exResolver ⟨[], []⟩ "example.com." "93.184.216.34"
    (by decide) (by decide) (by decide)

/-- C2, counterexample. First query followed by a repeat query for
`example.com.` in the proxy3 handler with lookups enabled: the upstream
resolver is invoked twice, not once — the repeat query does not skip the
upstream call. -/
theorem C2_counterexample :
    ((handle3 true exResolver ⟨[], []⟩
        [⟨"example.com.", TypeA⟩, ⟨"example.com.", TypeA⟩]).2.2.countP
      (fun e => match e with | .resolve _ => true | _ => false)) = 2 := by decide

/-- C2, amended. For a domain not previously seen, a successful resolution
followed by a repeat query yields: the repeat reply carries the address
stored at the first resolution (served from the cache row, whose
`query_count` is incremented from 0 to 1), but the upstream resolver is
invoked again on the repeat query — proxy3 calls `net.LookupIP` on every
enabled A-record query and only the reply's address comes from the cache.
The first reply itself carries no answer. -/
theorem C2_amended (resolver : String → Option String) (d ip : String) (l : List Nat)
    (hr : resolver d = some ip) (hip : parseIP ip = some l) :
    handle3 true resolver ⟨[], []⟩ [⟨d, TypeA⟩, ⟨d, TypeA⟩] =
      (⟨[⟨toLower d, ip, 1⟩], []⟩, [⟨d, ip, 60⟩],
        [.resolve d, .dbSelect (toLower d), .dbInsert (toLower d) ip,
          .resolve d, .dbSelect (toLower d), .dbUpdate (toLower d), .dbSelect (toLower d)]) := by
  simp [handle3, step3, existsInDatabaseIncrementCount, queryRow, getFromDatabase,
    findRow, incrRow, hr, hip, TypeA]

/-- C2, witness for the amended theorem at scenario 2's concrete input. -/
theorem C2_amended_witness :
    handle3 true exResolver ⟨[], []⟩ [⟨"example.com.", TypeA⟩, ⟨"example.com.", TypeA⟩] =
      (⟨[⟨toLower "example.com.", "93.184.216.34", 1⟩], []⟩,
        [⟨"example.com.", "93.184.216.34", 60⟩],
        [.resolve "example.com.", .dbSelect (toLower "example.com."),
          .dbInsert (toLower "example.com.") "93.184.216.34",
          .resolve "example.com.", .dbSelect (toLower "example.com."),
          .dbUpdate (toLower "example.com."), .dbSelect (toLower "example.com.")]) :=
  C2_amended exResolver "example.com." "93.184.216.34" [93, 184, 216, 34]
    (by decide) (by decide)

/-- C4, code bug. An A-record query for the mixed-case name `Example.COM.`
on an empty cache with lookups enabled, in the `cmd/dnsToy/main.go`
handler: the lookup key is lower-cased but the write key is not
(`AddToDatabase` receives the raw `question.Name`), so the row is stored
under `Example.COM.`, the lower-cased lookup `example.com.` misses it, and
even the identical repeat query misses its own entry and resolves upstream
again. -/
theorem C4_bug :
    stepMain true exResolver4 ⟨[], []⟩ ⟨"Example.COM.", TypeA⟩ =
      (⟨[⟨"Example.COM.", "1.2.3.4", 0⟩], []⟩, [],
        [.dbSelect "example.com.", .resolve "Example.COM.",
          .dbInsert "Example.COM." "1.2.3.4"]) ∧
    getFromDatabase ⟨[⟨"Example.COM.", "1.2.3.4", 0⟩], []⟩ "example.com." = ("", false) ∧
    .resolve "Example.COM." ∈
      (stepMain true exResolver4 ⟨[⟨"Example.COM.", "1.2.3.4", 0⟩], []⟩
        ⟨"Example.COM.", TypeA⟩).2.2 := by decide

/-- C5, code bug. When an upstream exchange fails (upstream unreachable or
response malformed), `DnsLookup` calls `log.Fatalf` and terminates the
process instead of returning an error to its caller: shown for a failure of
the initial PTR exchange and for a failure of the A exchange. Only the
no-answers case is returned to the caller as an error. -/
theorem C5_bug :
    DnsLookup (fun _ => none) "example.com." = ([ptrProbe], .fatal) ∧
    DnsLookup (fun q => if q.qtype = TypePTR then some [] else none) "example.com." =
      ([ptrProbe, ⟨"example.com.", TypeA⟩], .fatal) ∧
    DnsLookup (fun _ => some []) "example.com." =
      ([ptrProbe, ⟨"example.com.", TypeA⟩],
        .err "Custom Error: No IP address returned for the domain") := by decide

/-- C6, counterexample. A non-A question (type 15, MX) for a cached domain
while lookups are disabled, in the proxy3 handler: the disabled branch has
no record-type check, so the cache is read and an A answer record is
produced — contradicting "no answer record and no cache access in every
lookup-policy state". -/
theorem C6_counterexample :
    (step3 false (fun _ => none) ⟨[⟨"a.example.", "1.2.3.4", 0⟩], []⟩
        ⟨"a.example.", 15⟩).2.1 = [⟨"a.example.", "1.2.3.4", 60⟩] ∧
    .dbSelect "a.example." ∈
      (step3 false (fun _ => none) ⟨[⟨"a.example.", "1.2.3.4", 0⟩], []⟩
        ⟨"a.example.", 15⟩).2.2 := by decide

/-- C6, amended. With lookups enabled the proxy3 handler skips a non-A
question with no answer, no cache access and no resolver call; but with
lookups disabled the type check is absent: every question, of any record
type, triggers a cache read (and, on a hit with a parseable address, an A
answer record), and the minimal variant likewise reads the cache for every
question type. -/
theorem C6_amended (resolver : String → Option String) (db : DB) (mdb : MiniDB)
    (q : Question) (h : q.qtype ≠ TypeA) :
    step3 true resolver db q = (db, [], []) ∧
    (step3 false resolver db q).1 = db ∧
    (step3 false resolver db q).2.2 = [.dbSelect (toLower q.name)] ∧
    .dbSelect (toLower q.name) ∈ (stepMini mdb q).2.2 := by
  have hd : (step3 false resolver db q).1 = db ∧
      (step3 false resolver db q).2.2 = [.dbSelect (toLower q.name)] := by
    rcases hg : getFromDatabase db (toLower q.name) with ⟨ip, found⟩
    cases found
    · simp [step3, hg]
    · rcases hp : parseIP ip with _ | l <;> simp [step3, hg, hp]
  refine ⟨by simp [step3, h], hd.1, hd.2, ?_⟩
  rcases hg : getFromDatabaseMini mdb (toLower q.name) with ⟨ip, found⟩
  cases found
  · simp [stepMini, hg]
  · rcases hp : parseIP ip with _ | l <;> simp [stepMini, hg, hp]

/-- C6, witness for the amended theorem: an MX question for a domain the
proxy3 store does not hold, with lookups enabled and disabled, and the
minimal variant's store. -/
theorem C6_amended_witness :
    step3 true exResolver ⟨[], []⟩ ⟨"a.example.", 15⟩ = (⟨[], []⟩, [], []) ∧
    (step3 false exResolver ⟨[], []⟩ ⟨"a.example.", 15⟩).1 = ⟨[], []⟩ ∧
    (step3 false exResolver ⟨[], []⟩ ⟨"a.example.", 15⟩).2.2 =
      [.dbSelect (toLower "a.example.")] ∧
    .dbSelect (toLower "a.example.") ∈ (stepMini ⟨[], []⟩ ⟨"a.example.", 15⟩).2.2 :=
  C6_amended exResolver ⟨[], []⟩ ⟨[], []⟩ ⟨"a.example.", 15⟩ (by decide)

/-- C7, confirmed. Sequential contract of `existsInDatabaseIncrementCount`
on a store whose engine does not fault for the key: when the domain exists,
it increments that entry's `query_count` by one, leaves the stored address
unchanged and returns `existed=true`; when absent, it inserts the row with
the supplied address and `query_count` 0 and returns `existed=false`. -/
theorem C7_contract (db : DB) (domain ip : String) (hf : domain ∉ db.faults) :
    (∀ e, findRow db.rows domain = some e →
      existsInDatabaseIncrementCount db domain ip =
        ({ db with rows := incrRow db.rows domain }, .ok true,
          [.dbSelect domain, .dbUpdate domain]) ∧
      findRow (incrRow db.rows domain) domain =
        some { e with query_count := e.query_count + 1 }) ∧
    (findRow db.rows domain = none →
      existsInDatabaseIncrementCount db domain ip =
        ({ db with rows := db.rows ++ [⟨domain, ip, 0⟩] }, .ok false,
          [.dbSelect domain, .dbInsert domain ip])) := by
  constructor
  · intro e he
    refine ⟨by simp [existsInDatabaseIncrementCount, queryRow, hf, he], ?_⟩
    rw [findRow_incrRow, he]
    rfl
  · intro he
    simp [existsInDatabaseIncrementCount, queryRow, hf, he]

/-- C7, witness: the existing-domain branch on a one-row store, and the
absent-domain branch on an empty store. -/
theorem C7_witness :
    (existsInDatabaseIncrementCount ⟨[⟨"a.", "1.1.1.1", 5⟩], []⟩ "a." "9.9.9.9" =
      ({ (⟨[⟨"a.", "1.1.1.1", 5⟩], []⟩ : DB) with
          rows := incrRow [⟨"a.", "1.1.1.1", 5⟩] "a." },
        .ok true, [.dbSelect "a.", .dbUpdate "a."]) ∧
      findRow (incrRow [⟨"a.", "1.1.1.1", 5⟩] "a.") "a." = some ⟨"a.", "1.1.1.1", 6⟩) ∧
    existsInDatabaseIncrementCount ⟨[], []⟩ "b." "2.2.2.2" =
      ({ (⟨[], []⟩ : DB) with rows := [] ++ [⟨"b.", "2.2.2.2", 0⟩] }, .ok false,
        [.dbSelect "b.", .dbInsert "b." "2.2.2.2"]) :=
  ⟨(C7_contract ⟨[⟨"a.", "1.1.1.1", 5⟩], []⟩ "a." "9.9.9.9" (by decide)).1
      ⟨"a.", "1.1.1.1", 5⟩ (by decide),
    (C7_contract ⟨[], []⟩ "b." "2.2.2.2" (by decide)).2 (by decide)⟩

/-- C8, counterexample. A storage-engine error while reading `a.example.`
(which the store does hold): `getFromDatabase` returns `("", false)` — the
same value as for an absent domain on a healthy store — so no error reaches
the caller; and the `main.go` handler then proceeds as on a plain miss,
invoking the upstream resolver for the very domain whose row exists. -/
theorem C8_counterexample :
    getFromDatabase ⟨[⟨"a.example.", "1.2.3.4", 0⟩], ["a.example."]⟩ "a.example." =
      ("", false) ∧
    getFromDatabase ⟨[], []⟩ "a.example." = ("", false) ∧
    .resolve "a.example." ∈
      (stepMain true (fun _ => some "5.6.7.8")
        ⟨[⟨"a.example.", "1.2.3.4", 0⟩], ["a.example."]⟩ ⟨"a.example.", TypeA⟩).2.2 := by
  decide

/-- C8, amended. A storage-engine error during a cache read is logged
inside `getFromDatabase` but not reported to the caller: the function
returns `found=false` exactly as for an absent domain, and the handler
proceeds as on a plain miss — in the disabled path the question gets an
empty answer with the store left unchanged (and in enabled paths a fresh
resolution and insert are attempted); the process does not crash. -/
theorem C8_amended (db : DB) (resolver : String → Option String) (q : Question)
    (h : toLower q.name ∈ db.faults) :
    getFromDatabase db (toLower q.name) = ("", false) ∧
    step3 false resolver db q = (db, [], [.dbSelect (toLower q.name)]) := by
  have hg : getFromDatabase db (toLower q.name) = ("", false) := by
    simp [getFromDatabase, queryRow, h]
  exact ⟨hg, by simp [step3, hg]⟩

/-- C8, witness at a store faulting on `a.example.` while holding a row for
it. -/
theorem C8_amended_witness :
    getFromDatabase ⟨[⟨"a.example.", "1.2.3.4", 0⟩], ["a.example."]⟩
      (toLower "a.example.") = ("", false) ∧
    step3 false exResolver ⟨[⟨"a.example.", "1.2.3.4", 0⟩], ["a.example."]⟩
      ⟨"a.example.", TypeA⟩ =
      (⟨[⟨"a.example.", "1.2.3.4", 0⟩], ["a.example."]⟩, [],
        [.dbSelect (toLower "a.example.")]) :=
  C8_amended ⟨[⟨"a.example.", "1.2.3.4", 0⟩], ["a.example."]⟩ exResolver
    ⟨"a.example.", TypeA⟩ (by decide)

/-- C9, counterexample. Resolving the empty domain name: `DnsLookup` first
performs the fixed PTR exchange — the exchange trace is nonempty — and then
fails with the generic custom error, not before touching the network. -/
theorem C9_counterexample :
    (DnsLookup (fun _ => some []) "").1 = [ptrProbe] ∧
    (DnsLookup (fun _ => some []) "").1 ≠ [] ∧
    (DnsLookup (fun _ => some []) "").2 =
      .err "Custom Error: No IP address returned for the domain" := by decide

/-- C9, amended. For every input, `DnsLookup` begins with the fixed PTR
exchange to the upstream before examining its input; for the empty domain
(when that PTR exchange succeeds) it then skips the forward A query and
fails with the generic custom error "No IP address returned for the
domain" — no `InvalidDomain` error kind exists in the program. -/
theorem C9_amended (upstream : DnsQuery → Option (List RRec)) (d : String) :
    (DnsLookup upstream d).1.head? = some ptrProbe ∧
    (d = "" → ∀ resp, upstream ptrProbe = some resp →
      DnsLookup upstream d =
        ([ptrProbe], .err "Custom Error: No IP address returned for the domain")) := by
  constructor
  · cases hp : upstream ptrProbe with
    | none => simp [DnsLookup, hp]
    | some resp =>
      by_cases hd : d = ""
      · simp [DnsLookup, hp, hd]
      · cases ha : upstream ⟨d, TypeA⟩ with
        | none => simp [DnsLookup, hp, hd, ha]
        | some respA =>
          simp only [DnsLookup, hp, hd, ha]
          split <;> split <;> rfl
  · intro hd resp hp
    simp [DnsLookup, hp, hd]

/-- C9, witness: empty domain against an upstream whose PTR exchange
succeeds with an empty answer section. -/
theorem C9_amended_witness :
    DnsLookup (fun _ => some []) "" =
      ([ptrProbe], .err "Custom Error: No IP address returned for the domain") :=
  (C9_amended (fun _ => some []) "").2 (by decide) [] (by decide)

/-- C10, confirmed. In the minimal variant, a first query for an unseen
domain (of any record type) stores the sentinel `0.0.0.0` under the
lower-cased name with no answer; every subsequent query for that domain —
any record type, any letter case — is answered with address `0.0.0.0`,
because the sentinel parses as a valid IP literal and is served like any
cached address. -/
theorem C10_holds (rows : List (String × String)) (faults : List String)
    (d d' : String) (t t' : Nat) (hf : toLower d ∉ faults)
    (habs : findMini rows (toLower d) = none) (hd : toLower d' = toLower d) :
    stepMini ⟨rows, faults⟩ ⟨d, t⟩ =
      (⟨rows ++ [(toLower d, "0.0.0.0")], faults⟩, [],
        [.dbSelect (toLower d), .dbInsert (toLower d) "0.0.0.0"]) ∧
    (stepMini (stepMini ⟨rows, faults⟩ ⟨d, t⟩).1 ⟨d', t'⟩).2.1 =
      [⟨d', "0.0.0.0", 60⟩] := by
  have h1 : stepMini ⟨rows, faults⟩ ⟨d, t⟩ =
      (⟨rows ++ [(toLower d, "0.0.0.0")], faults⟩, [],
        [.dbSelect (toLower d), .dbInsert (toLower d) "0.0.0.0"]) := by
    simp [stepMini, getFromDatabaseMini, addToDatabaseMini, hf, habs]
  refine ⟨h1, ?_⟩
  rw [h1]
  have hfind : findMini (rows ++ [(toLower d, "0.0.0.0")]) (toLower d) =
      some "0.0.0.0" := findMini_append_self rows (toLower d) "0.0.0.0" habs
  have hp : parseIP "0.0.0.0" = some [0, 0, 0, 0] := by decide
  simp [stepMini, getFromDatabaseMini, hd, hf, hfind, hp]

/-- C10, witness: an unseen domain queried with type 15, then re-queried in
different letter case with type 16. -/
theorem C10_witness :
    stepMini ⟨[], []⟩ ⟨"x.example.", 15⟩ =
      (⟨[] ++ [(toLower "x.example.", "0.0.0.0")], []⟩, [],
        [.dbSelect (toLower "x.example."), .dbInsert (toLower "x.example.") "0.0.0.0"]) ∧
    (stepMini (stepMini ⟨[], []⟩ ⟨"x.example.", 15⟩).1 ⟨"X.Example.", 16⟩).2.1 =
      [⟨"X.Example.", "0.0.0.0", 60⟩] :=
  C10_holds [] [] "x.example." "X.Example." 15 16 (by decide) (by decide) (by decide)

/-- Invariant of two interleaved callers of
`existsInDatabaseIncrementCount` for the same domain, started on an empty
table: at most one row for the domain exists; a caller that has observed
presence, or has finished, implies exactly one row; and the two callers
never both finish as successful inserts. -/
def ConcInv (domain : String) (rows : List Entry) (pcA pcB : CallerPC) : Prop :=
  countDomain rows domain ≤ 1 ∧
  (pcA = .afterSelect true → countDomain rows domain = 1) ∧
  (pcB = .afterSelect true → countDomain rows domain = 1) ∧
  (∀ r, pcA = .done r → countDomain rows domain = 1) ∧
  (∀ r, pcB = .done r → countDomain rows domain = 1) ∧
  ¬(pcA = .done (.ok false) ∧ pcB = .done (.ok false))

lemma concInv_swap {domain : String} {rows : List Entry} {pcA pcB : CallerPC}
    (h : ConcInv domain rows pcA pcB) : ConcInv domain rows pcB pcA := by
  obtain ⟨h1, h2, h3, h4, h5, h6⟩ := h
  exact ⟨h1, h3, h2, h5, h4, fun hc => h6 ⟨hc.2, hc.1⟩⟩

lemma concInv_callerStep (domain ip : String) {rows : List Entry} {pcA pcB : CallerPC}
    (h : ConcInv domain rows pcA pcB) :
    ConcInv domain (callerStep domain ip rows pcA).1 (callerStep domain ip rows pcA).2 pcB := by
  obtain ⟨h1, h2, h3, h4, h5, h6⟩ := h
  cases pcA with
  | start =>
    show ConcInv domain rows (.afterSelect (findRow rows domain).isSome) pcB
    refine ⟨h1, ?_, h3, ?_, h5, ?_⟩
    · intro hsel
      have hs : (findRow rows domain).isSome = true := by injection hsel
      obtain ⟨e, he⟩ := Option.isSome_iff_exists.mp hs
      have hne : countDomain rows domain ≠ 0 := by
        intro h0
        rw [(findRow_none_iff_count rows domain).mpr h0] at he
        cases he
      omega
    · intro r hr
      simp at hr
    · rintro ⟨ha, -⟩
      simp at ha
  | afterSelect found =>
    cases found with
    | false =>
      cases hf : findRow rows domain with
      | some e =>
        have hc : countDomain rows domain = 1 := by
          have hne : countDomain rows domain ≠ 0 := by
            intro h0
            have h0' := (findRow_none_iff_count rows domain).mpr h0
            rw [h0'] at hf
            cases hf
          omega
        simp only [callerStep, hf]
        refine ⟨h1, ?_, h3, ?_, h5, ?_⟩
        · intro hsel
          simp at hsel
        · intro r hr
          exact hc
        · rintro ⟨ha, -⟩
          simp at ha
      | none =>
        have hc0 : countDomain rows domain = 0 := (findRow_none_iff_count rows domain).mp hf
        have hc1 : countDomain (rows ++ [⟨domain, ip, 0⟩]) domain = 1 := by
          rw [countDomain_append, hc0]
          simp [countDomain]
        simp only [callerStep, hf]
        refine ⟨?_, ?_, ?_, ?_, ?_, ?_⟩
        · omega
        · intro hsel
          simp at hsel
        · intro hselB
          exact absurd (h3 hselB) (by omega)
        · intro r hr
          exact hc1
        · intro r hrB
          exact absurd (h5 r hrB) (by omega)
        · rintro ⟨-, hb⟩
          exact absurd (h5 _ hb) (by omega)
    | true =>
      have hc1 : countDomain rows domain = 1 := h2 rfl
      have hc1' : countDomain (incrRow rows domain) domain = 1 := by
        rw [countDomain_incrRow]
        exact hc1
      show ConcInv domain (incrRow rows domain) (.done (.ok true)) pcB
      refine ⟨?_, ?_, ?_, ?_, ?_, ?_⟩
      · omega
      · intro hsel
        simp at hsel
      · intro hselB
        exact hc1'
      · intro r hr
        exact hc1'
      · intro r hrB
        exact hc1'
      · rintro ⟨ha, -⟩
        simp at ha
  | done r =>
    show ConcInv domain rows (.done r) pcB
    refine ⟨h1, ?_, h3, h4, h5, h6⟩
    intro hsel
    simp at hsel

lemma concInv_runConc (domain ip1 ip2 : String) (sched : List Bool) (s : ConcState)
    (h : ConcInv domain s.rows s.pc1 s.pc2) :
    ConcInv domain (runConc domain ip1 ip2 sched s).rows
      (runConc domain ip1 ip2 sched s).pc1 (runConc domain ip1 ip2 sched s).pc2 := by
  induction sched generalizing s with
  | nil => simpa [runConc] using h
  | cons b rest ih =>
    cases b
    · exact ih _ (concInv_swap (concInv_callerStep domain ip2 (concInv_swap h)))
    · exact ih _ (concInv_callerStep domain ip1 h)

/-- C3, counterexample. Two simultaneous first-queries for the same new
domain under the interleaving select-select-insert-insert: caller 1's
insert succeeds, caller 2's insert hits the `UNIQUE` primary-key constraint
and `existsInDatabaseIncrementCount` returns an error — caller 2 neither
observes `existed=true` nor retries, its increment is lost, and the final
`query_count` is 0 instead of the serialized outcome's 1 (one insert plus
N−1 = 1 increment). -/
theorem C3_counterexample :
    runConc "d." "1.2.3.4" "5.6.7.8" [true, false, true, false] ⟨[], .start, .start⟩ =
      ⟨[⟨"d.", "1.2.3.4", 0⟩], .done (.ok false), .done .err⟩ := by decide

/-- C3, amended. For two concurrent first-queries for the same new domain,
under every interleaving of the `SELECT`-then-write micro-steps of
`existsInDatabaseIncrementCount`: the primary key guarantees at most one
row for the domain and never two callers both succeeding as inserts, and
whenever both callers have completed exactly one row exists; but the
operation is not atomic — the raced caller can observe a `DuplicateKey`
error instead of `existed=true`, losing its increment, so the final
`query_count` need not reflect one insert and N−1 increments. -/
theorem C3_amended (domain ip1 ip2 : String) (sched : List Bool) :
    countDomain (runConc domain ip1 ip2 sched ⟨[], .start, .start⟩).rows domain ≤ 1 ∧
    ¬((runConc domain ip1 ip2 sched ⟨[], .start, .start⟩).pc1 = .done (.ok false) ∧
      (runConc domain ip1 ip2 sched ⟨[], .start, .start⟩).pc2 = .done (.ok false)) ∧
    (∀ r1 r2, (runConc domain ip1 ip2 sched ⟨[], .start, .start⟩).pc1 = .done r1 →
      (runConc domain ip1 ip2 sched ⟨[], .start, .start⟩).pc2 = .done r2 →
      countDomain (runConc domain ip1 ip2 sched ⟨[], .start, .start⟩).rows domain = 1) := by
  have hinit : ConcInv domain ([] : List Entry) .start .start := by
    refine ⟨?_, ?_, ?_, ?_, ?_, ?_⟩
    · simp [countDomain]
    · intro h
      simp at h
    · intro h
      simp at h
    · intro r hr
      simp at hr
    · intro r hr
      simp at hr
    · rintro ⟨hc, -⟩
      simp at hc
  have h := concInv_runConc domain ip1 ip2 sched ⟨[], .start, .start⟩ hinit
  exact ⟨h.1, h.2.2.2.2.2, fun r1 r2 h1 _ => h.2.2.2.1 r1 h1⟩

/-- C3, witness for the amended theorem at the racing schedule: both
callers completed, and exactly one row for the domain exists. -/
theorem C3_amended_witness :
    countDomain (runConc "d." "1.2.3.4" "5.6.7.8" [true, false, true, false]
      ⟨[], .start, .start⟩).rows "d." = 1 := by
  have h := C3_amended "d." "1.2.3.4" "5.6.7.8" [true, false, true, false]
  exact h.2.2 (.ok false) .err (by decide) (by decide)

end DnsToy
